import Mathlib

/-!
# Verification of the Wikipedia football-stadium extraction pipeline

Shallow embedding of the repository's Python code:
* `src/pipelines/wikipedia_pipeline.py` — `clean_text`, `extract_wikipedia_data`,
  `transform_wikipedia_data`, `wikipedia_data_pipeline`;
* `src/findtable.py` — `clean_text`, `get_wikipedia_data` (table locator with
  fallback class set and the rank loop).

Cell text is modelled as `List Char`.  Python's string primitives
(`str.strip`, `str.replace`, `str.split`, `str.find`) are embedded as
structural (fuel-based) recursions so that every definition evaluates by
`decide`/`rfl`.  External collaborators (the HTML parser `BeautifulSoup`,
the `Nominatim` geocoder, the HTTP fetch, CSV persistence) are parameters
of the embedded functions: the parser is a function from text to a list of
table nodes, the geocoder is a function from (country, city) to an optional
coordinate pair, compared only for equality, hence modelled as
`Option (Int × Int)`.  Fallible Python code (list indexing, `astype(int)`)
returns `Except String`.
-/

/-! ## Python string primitives -/

/-- Characters stripped by Python's `str.strip()` (ASCII whitespace set;
only these appear in the data handled by the pipeline). -/
def pyIsSpace (c : Char) : Bool :=
  c = ' ' || c = '\t' || c = '\n' || c = '\r' || c = '\x0b' || c = '\x0c'

/-- Python `str.strip()`: remove leading and trailing whitespace. -/
def pyStrip (s : List Char) : List Char :=
  ((s.dropWhile pyIsSpace).reverse.dropWhile pyIsSpace).reverse

/-- Boolean substring test: `hasSub sub s` is true iff `sub` occurs
contiguously inside `s` (Python `sub in s`). -/
def hasSub (sub : List Char) : List Char → Bool
  | [] => sub.isEmpty
  | c :: rest => sub.isPrefixOf (c :: rest) || hasSub sub rest

/-- Fuel-driven worker for Python `str.replace(old, new)`: replaces
non-overlapping occurrences left to right, never rescanning the output.
The fuel is only an induction handle; `replaceSub` supplies `s.length`,
which is enough because every step consumes at least one character. -/
def replaceSubF (old new : List Char) : Nat → List Char → List Char
  | _, [] => []
  | 0, c :: rest => c :: rest
  | fuel + 1, c :: rest =>
    if old ≠ [] ∧ old.isPrefixOf (c :: rest) then
      new ++ replaceSubF old new fuel (rest.drop (old.length - 1))
    else
      c :: replaceSubF old new fuel rest

/-- Python `s.replace(old, new)` (for the nonempty `old` used by the code;
Python raises on other uses of the degenerate empty pattern only for
`split`, and `replace('', …)` never occurs in this repository). -/
def replaceSub (old new s : List Char) : List Char :=
  replaceSubF old new s.length s

/-- Fuel-driven worker for Python `str.split(sep)` (nonempty `sep`):
splits on non-overlapping occurrences left to right. -/
def pySplitF (sep : List Char) : Nat → List Char → List (List Char)
  | _, [] => [[]]
  | 0, c :: rest => [c :: rest]
  | fuel + 1, c :: rest =>
    if sep ≠ [] ∧ sep.isPrefixOf (c :: rest) then
      [] :: pySplitF sep fuel (rest.drop (sep.length - 1))
    else
      match pySplitF sep fuel rest with
      | [] => [[c]]
      | t :: ts => (c :: t) :: ts

/-- Python `s.split(sep)` for nonempty `sep`. -/
def pySplit (sep s : List Char) : List (List Char) :=
  pySplitF sep s.length s

/-- Worker for Python `str.find`: index of the first occurrence of `sub`
starting from accumulated index `i`, or `none`. -/
def findSubAux (sub : List Char) : List Char → Nat → Option Nat
  | [], i => if sub.isEmpty then some i else none
  | c :: rest, i =>
    if sub.isPrefixOf (c :: rest) then some i else findSubAux sub rest (i + 1)

/-- Python `s.find(sub)`: index of the first occurrence, or `-1`. -/
def findSub (sub s : List Char) : Int :=
  match findSubAux sub s 0 with
  | some i => (i : Int)
  | none => -1

/-! ## Tokens appearing in `wikipedia_pipeline.py` -/

/-- The `'&nbsp'` artifact removed by `clean_text` (line 67). -/
def nbspTok : List Char := "&nbsp".toList

/-- The `' ♦'` preferred-name marker (lines 68–69). -/
def diamondTok : List Char := " ♦".toList

/-- The `'['` footnote marker (lines 70–71). -/
def bracketTok : List Char := "[".toList

/-- The `' (formerly)'` qualifier (lines 72–73). -/
def formerlyTok : List Char := " (formerly)".toList

/-- The newline characters removed last (line 75). -/
def newlineTok : List Char := "\n".toList

/-- Thousands separators stripped from `capacity` (line 108). -/
def commaTok : List Char := ",".toList

/-- Thousands separators stripped from `capacity` (line 108). -/
def dotTok : List Char := ".".toList

/-- Scheme re-attached to protocol-relative image links (line 112). -/
def httpsTok : List Char := "https://".toList

/-- The `"//"` separator used on image `src` attributes (line 112). -/
def slashesTok : List Char := "//".toList

/-- The sentinel "no image" URL (`NO_IMAGE`, line 7). -/
def NO_IMAGE : List Char :=
  "https://upload.wikimedia.org/wikipedia/commons/thumb/0/0a/No-image-available.png/480px-No-image-available.png".toList

/-- The literal string `'NO_IMAGE'` that `transform_wikipedia_data`
compares image values against (line 157). -/
def NO_IMAGE_LIT : List Char := "NO_IMAGE".toList

/-- Message of the `IndexError` raised by out-of-range list indexing. -/
def indexErrorMsg : String := "IndexError: list index out of range"

/-- Message of the `AttributeError` raised by `None.split` when an `<img>`
has no `src` attribute. -/
def attributeErrorMsg : String := "AttributeError"

/-- Message of the `ValueError` raised by `int()` on a non-numeric string. -/
def valueErrorMsg : String := "ValueError"

/-- Message of the error raised by `astype(int)` on an all-NaN row. -/
def nanErrorMsg : String := "ValueError: cannot convert non-finite values (NA or inf) to integer"

/-! ## `clean_text` (wikipedia_pipeline.py lines 55–75)

```python
text = str(text).strip()
text = text.replace('&nbsp', '')
if text.find(' ♦'):
    text = text.split(' ♦')[0]
if text.find('[') != -1:
    text = text.split('[')[0]
if text.find(' (formerly)') != -1:
    text = text.split(' (formerly)')[0]
return text.replace('\n', '')
```

Note the first guard is `if text.find(' ♦'):`, i.e. Python integer
truthiness: the branch is taken exactly when the find result is nonzero
(including `-1`, "not found"). -/

/-- `clean_text` with Python's fallible `[0]` list indexing made explicit:
`none` would mean an uncaught `IndexError`. -/
def clean_textChecked (text : List Char) : Option (List Char) :=
  let t1 := pyStrip text
  let t2 := replaceSub nbspTok [] t1
  match (if findSub diamondTok t2 ≠ 0 then (pySplit diamondTok t2).get? 0 else some t2) with
  | none => none
  | some t3 =>
    match (if findSub bracketTok t3 ≠ -1 then (pySplit bracketTok t3).get? 0 else some t3) with
    | none => none
    | some t4 =>
      match (if findSub formerlyTok t4 ≠ -1 then (pySplit formerlyTok t4).get? 0 else some t4) with
      | none => none
      | some t5 => some (replaceSub newlineTok [] t5)

/-- Total version of `clean_text` (the `[0]` access is safe because
`split` always yields a nonempty list; see `clean_text_total`). -/
def clean_text (text : List Char) : List Char :=
  let t1 := pyStrip text
  let t2 := replaceSub nbspTok [] t1
  let t3 := if findSub diamondTok t2 ≠ 0 then (pySplit diamondTok t2).headD [] else t2
  let t4 := if findSub bracketTok t3 ≠ -1 then (pySplit bracketTok t3).headD [] else t3
  let t5 := if findSub formerlyTok t4 ≠ -1 then (pySplit formerlyTok t4).headD [] else t4
  replaceSub newlineTok [] t5

/-- `clean_text` of `findtable.py` (lines 5–9): `text.strip().replace('\n', '')`. -/
def ft_clean_text (text : List Char) : List Char :=
  replaceSub newlineTok [] (pyStrip text)

/-! ## Lemmas about the string primitives -/

theorem isPrefixOf_iff (l s : List Char) : l.isPrefixOf s = true ↔ ∃ t, l ++ t = s := by
  induction l generalizing s with
  | nil => simp [List.isPrefixOf]
  | cons a as ih =>
    cases s with
    | nil => simp [List.isPrefixOf]
    | cons b bs =>
      simp only [List.isPrefixOf, Bool.and_eq_true, beq_iff_eq, ih, List.cons_append,
        List.cons.injEq]
      constructor
      · rintro ⟨rfl, t, rfl⟩
        exact ⟨t, rfl, rfl⟩
      · rintro ⟨t, rfl, rfl⟩
        exact ⟨rfl, t, rfl⟩

theorem hasSub_iff (sub s : List Char) :
    hasSub sub s = true ↔ ∃ pre post, pre ++ (sub ++ post) = s := by
  induction s with
  | nil =>
    simp only [hasSub]
    constructor
    · intro h
      have : sub = [] := by
        cases sub with
        | nil => rfl
        | cons x xs => simp [List.isEmpty] at h
      exact ⟨[], [], by simp [this]⟩
    · rintro ⟨pre, post, h⟩
      rcases List.append_eq_nil.mp h with ⟨rfl, h2⟩
      rcases List.append_eq_nil.mp h2 with ⟨rfl, rfl⟩
      rfl
  | cons c rest ih =>
    simp only [hasSub, Bool.or_eq_true, ih, isPrefixOf_iff]
    constructor
    · rintro (⟨t, ht⟩ | ⟨pre, post, hp⟩)
      · exact ⟨[], t, by simpa using ht⟩
      · exact ⟨c :: pre, post, by simp [hp]⟩
    · rintro ⟨pre, post, hp⟩
      cases pre with
      | nil => exact Or.inl ⟨post, by simpa using hp⟩
      | cons x xs =>
        simp only [List.cons_append, List.cons.injEq] at hp
        exact Or.inr ⟨xs, post, hp.2⟩

theorem hasSub_append (sub t u : List Char) (h : hasSub sub t = true) :
    hasSub sub (t ++ u) = true := by
  rcases (hasSub_iff sub t).mp h with ⟨pre, post, rfl⟩
  exact (hasSub_iff _ _).mpr ⟨pre, post ++ u, by simp⟩

/-- If `sub` does not occur in `s` and `t` is a prefix of `s`, then `sub`
does not occur in `t`. -/
theorem hasSub_false_of_append (sub t u s : List Char) (hts : t ++ u = s)
    (hs : hasSub sub s = false) : hasSub sub t = false := by
  cases hh : hasSub sub t
  · rfl
  · exfalso
    have h1 := hasSub_append sub t u hh
    rw [hts, hs] at h1
    exact Bool.noConfusion h1

theorem pySplitF_ne_nil (sep : List Char) (fuel : Nat) (s : List Char) :
    pySplitF sep fuel s ≠ [] := by
  induction fuel generalizing s with
  | zero => cases s <;> simp [pySplitF]
  | succ fuel ih =>
    cases s with
    | nil => simp [pySplitF]
    | cons c rest =>
      simp only [pySplitF]
      split
      · simp
      · split <;> simp

theorem pySplitF_headD_append (sep : List Char) (fuel : Nat) (s : List Char) :
    ∃ u, (pySplitF sep fuel s).headD [] ++ u = s := by
  induction fuel generalizing s with
  | zero =>
    cases s with
    | nil => exact ⟨[], rfl⟩
    | cons c rest => exact ⟨[], by simp [pySplitF]⟩
  | succ fuel ih =>
    cases s with
    | nil => exact ⟨[], by simp [pySplitF]⟩
    | cons c rest =>
      simp only [pySplitF]
      split
      · exact ⟨c :: rest, rfl⟩
      · cases hsp : pySplitF sep fuel rest with
        | nil => exact absurd hsp (pySplitF_ne_nil sep fuel rest)
        | cons t ts =>
          rcases ih rest with ⟨u, hu⟩
          rw [hsp] at hu
          simp only [List.headD_cons] at hu
          exact ⟨u, by simp [hu]⟩

theorem pySplitF_headD_not_hasSub (sep : List Char) (hsep : sep ≠ []) (fuel : Nat)
    (s : List Char) (hs : s.length ≤ fuel) :
    hasSub sep ((pySplitF sep fuel s).headD []) = false := by
  induction fuel generalizing s with
  | zero =>
    have : s = [] := List.length_eq_zero.mp (Nat.le_zero.mp hs)
    subst this
    simp only [pySplitF, List.headD_cons, hasSub]
    cases sep with
    | nil => exact absurd rfl hsep
    | cons x xs => simp [List.isEmpty]
  | succ fuel ih =>
    cases s with
    | nil =>
      simp only [pySplitF, List.headD_cons, hasSub]
      cases sep with
      | nil => exact absurd rfl hsep
      | cons x xs => simp [List.isEmpty]
    | cons c rest =>
      simp only [pySplitF]
      split
      case isTrue h =>
        simp only [List.headD_cons, hasSub]
        cases sep with
        | nil => exact absurd rfl hsep
        | cons x xs => simp [List.isEmpty]
      case isFalse h =>
        have hrest : rest.length ≤ fuel := by
          simp only [List.length_cons] at hs
          omega
        have hpre : sep.isPrefixOf (c :: rest) = false := by
          cases hp : sep.isPrefixOf (c :: rest)
          · rfl
          · exact absurd ⟨hsep, hp⟩ h
        cases hsp : pySplitF sep fuel rest with
        | nil => exact absurd hsp (pySplitF_ne_nil sep fuel rest)
        | cons t ts =>
          show hasSub sep (c :: t) = false
          have ht : hasSub sep t = false := by
            have := ih rest hrest
            rw [hsp] at this
            simpa using this
          have hct : sep.isPrefixOf (c :: t) = false := by
            cases hp : sep.isPrefixOf (c :: t)
            · rfl
            · exfalso
              rcases (isPrefixOf_iff _ _).mp hp with ⟨v, hv⟩
              rcases pySplitF_headD_append sep fuel rest with ⟨u, hu⟩
              rw [hsp] at hu
              simp only [List.headD_cons] at hu
              have hc2 : sep.isPrefixOf (c :: rest) = true := by
                apply (isPrefixOf_iff _ _).mpr
                refine ⟨v ++ u, ?_⟩
                rw [← List.append_assoc, hv, List.cons_append, hu]
              rw [hpre] at hc2
              exact Bool.noConfusion hc2
          simp [hasSub, hct, ht]

theorem mem_replaceSubF_nil (old : List Char) (fuel : Nat) (s : List Char) (a : Char)
    (h : a ∈ replaceSubF old [] fuel s) : a ∈ s := by
  induction fuel generalizing s with
  | zero =>
    cases s with
    | nil => simp [replaceSubF] at h
    | cons c rest => simpa [replaceSubF] using h
  | succ fuel ih =>
    cases s with
    | nil => simp [replaceSubF] at h
    | cons c rest =>
      simp only [replaceSubF] at h
      split at h
      · simp only [List.nil_append] at h
        exact List.mem_cons_of_mem _ (List.drop_subset _ _ (ih _ h))
      · rcases List.mem_cons.mp h with rfl | h2
        · exact List.mem_cons_self _ _
        · exact List.mem_cons_of_mem _ (ih _ h2)

theorem replaceSubF_eq_self (old new : List Char) (fuel : Nat) (s : List Char)
    (h : hasSub old s = false) : replaceSubF old new fuel s = s := by
  induction fuel generalizing s with
  | zero => cases s <;> simp [replaceSubF]
  | succ fuel ih =>
    cases s with
    | nil => simp [replaceSubF]
    | cons c rest =>
      simp only [hasSub, Bool.or_eq_false_iff] at h
      simp only [replaceSubF]
      split
      case isTrue hcond => exact absurd hcond.2 (by simp [h.1])
      case isFalse _ => rw [ih rest h.2]

theorem mem_dropWhile (p : Char → Bool) (l : List Char) (a : Char)
    (h : a ∈ l.dropWhile p) : a ∈ l := by
  induction l with
  | nil => simp at h
  | cons c rest ih =>
    rw [List.dropWhile_cons] at h
    split at h
    · exact List.mem_cons_of_mem _ (ih h)
    · exact h

theorem mem_pyStrip (s : List Char) (a : Char) (h : a ∈ pyStrip s) : a ∈ s := by
  unfold pyStrip at h
  rw [List.mem_reverse] at h
  have h2 := mem_dropWhile _ _ _ h
  rw [List.mem_reverse] at h2
  exact mem_dropWhile _ _ _ h2

theorem hasSub_single_iff (c : Char) (s : List Char) : hasSub [c] s = true ↔ c ∈ s := by
  rw [hasSub_iff]
  constructor
  · rintro ⟨pre, post, rfl⟩
    simp
  · intro h
    rcases List.append_of_mem h with ⟨pre, post, rfl⟩
    exact ⟨pre, post, by simp⟩

theorem hasSub_single_false (c : Char) (s : List Char) (h : c ∉ s) :
    hasSub [c] s = false := by
  cases hh : hasSub [c] s
  · rfl
  · exact absurd ((hasSub_single_iff c s).mp hh) h

theorem findSubAux_none_iff (sub : List Char) (s : List Char) :
    ∀ i : Nat, findSubAux sub s i = none ↔ hasSub sub s = false := by
  induction s with
  | nil =>
    intro i
    cases h : sub.isEmpty <;> simp [findSubAux, hasSub, h]
  | cons c rest ih =>
    intro i
    simp only [findSubAux, hasSub]
    cases hp : sub.isPrefixOf (c :: rest) <;> simp [hp, ih]

theorem findSub_neg_iff (sub s : List Char) : findSub sub s = -1 ↔ hasSub sub s = false := by
  unfold findSub
  cases h : findSubAux sub s 0 with
  | none => simp [(findSubAux_none_iff sub s 0).mp h]
  | some k =>
    have hne : findSubAux sub s 0 ≠ none := by simp [h]
    have h2 : ¬hasSub sub s = false := fun hf => hne ((findSubAux_none_iff sub s 0).mpr hf)
    show (k : Int) = -1 ↔ hasSub sub s = false
    constructor
    · intro hk
      exfalso
      omega
    · intro hf
      exact absurd hf h2

theorem get?_zero_headD (l : List (List Char)) (h : l ≠ []) :
    l.get? 0 = some (l.headD []) := by
  cases l with
  | nil => exact absurd rfl h
  | cons t ts => rfl

theorem pySplit_ne_nil (sep s : List Char) : pySplit sep s ≠ [] :=
  pySplitF_ne_nil sep s.length s

theorem pySplit_headD_append (sep s : List Char) :
    ∃ u, (pySplit sep s).headD [] ++ u = s :=
  pySplitF_headD_append sep s.length s

theorem pySplit_headD_not_hasSub (sep s : List Char) (hsep : sep ≠ []) :
    hasSub sep ((pySplit sep s).headD []) = false :=
  pySplitF_headD_not_hasSub sep hsep s.length s (Nat.le_refl _)

theorem mem_replaceSub_nil (old s : List Char) (a : Char) (h : a ∈ replaceSub old [] s) :
    a ∈ s :=
  mem_replaceSubF_nil old s.length s a h

theorem replaceSub_eq_self (old new s : List Char) (h : hasSub old s = false) :
    replaceSub old new s = s :=
  replaceSubF_eq_self old new s.length s h

/-! ## Structural facts about `clean_text` -/

/-- The checked and total versions of `clean_text` agree: the `[0]`
accesses after `split` can never raise. -/
theorem clean_textChecked_eq (s : List Char) : clean_textChecked s = some (clean_text s) := by
  have e1 : ∀ sep t : List Char, (pySplit sep t).get? 0 = some ((pySplit sep t).headD []) :=
    fun sep t => get?_zero_headD _ (pySplit_ne_nil sep t)
  simp only [clean_textChecked, clean_text, e1]
  simp only [← apply_ite some]

/-- The output of `clean_text` never contains the `'['` footnote marker. -/
theorem clean_text_no_bracket (s : List Char) : hasSub bracketTok (clean_text s) = false := by
  simp only [clean_text]
  have h4 : ∀ t3 : List Char,
      hasSub bracketTok
        (if findSub bracketTok t3 ≠ -1 then (pySplit bracketTok t3).headD [] else t3) = false := by
    intro t3
    by_cases hc : findSub bracketTok t3 ≠ -1
    · rw [if_pos hc]
      exact pySplit_headD_not_hasSub bracketTok t3 (by decide)
    · rw [if_neg hc]
      push_neg at hc
      exact (findSub_neg_iff _ _).mp hc
  have h5 : ∀ t4 : List Char, hasSub bracketTok t4 = false →
      hasSub bracketTok
        (if findSub formerlyTok t4 ≠ -1 then (pySplit formerlyTok t4).headD [] else t4) = false := by
    intro t4 h4'
    by_cases hc : findSub formerlyTok t4 ≠ -1
    · rw [if_pos hc]
      rcases pySplit_headD_append formerlyTok t4 with ⟨u, hu⟩
      exact hasSub_false_of_append _ _ u t4 hu h4'
    · rw [if_neg hc]
      exact h4'
  have h6 : ∀ t5 : List Char, hasSub bracketTok t5 = false →
      hasSub bracketTok (replaceSub newlineTok [] t5) = false := by
    intro t5 h5'
    have hmem : '[' ∉ replaceSub newlineTok [] t5 := by
      intro hin
      have hm : '[' ∈ t5 := mem_replaceSub_nil newlineTok t5 '[' hin
      have hs : hasSub ['['] t5 = true := (hasSub_single_iff _ _).mpr hm
      rw [show (['['] : List Char) = bracketTok from rfl, h5'] at hs
      exact Bool.noConfusion hs
    have hh := hasSub_single_false '[' _ hmem
    rwa [show (['['] : List Char) = bracketTok from rfl] at hh
  exact h6 _ (h5 _ (h4 _))

/-- If the input has no newline and a single `'&nbsp'` removal pass leaves
no `'&nbsp'` occurrence, then the output of `clean_text` contains neither
`'&nbsp'` nor `' (formerly)'`. -/
theorem clean_text_no_nbsp_formerly (s : List Char) (hnl : '\n' ∉ s)
    (hone : hasSub nbspTok (replaceSub nbspTok [] (pyStrip s)) = false) :
    hasSub nbspTok (clean_text s) = false ∧ hasSub formerlyTok (clean_text s) = false := by
  simp only [clean_text]
  set t2 := replaceSub nbspTok [] (pyStrip s) with ht2
  set t3 := (if findSub diamondTok t2 ≠ 0 then (pySplit diamondTok t2).headD [] else t2) with ht3
  set t4 := (if findSub bracketTok t3 ≠ -1 then (pySplit bracketTok t3).headD [] else t3) with ht4
  set t5 := (if findSub formerlyTok t4 ≠ -1 then (pySplit formerlyTok t4).headD [] else t4) with ht5
  have p3 : ∃ u, t3 ++ u = t2 := by
    rw [ht3]
    by_cases hc : findSub diamondTok t2 ≠ 0
    · rw [if_pos hc]
      exact pySplit_headD_append _ _
    · rw [if_neg hc]
      exact ⟨[], by simp⟩
  have p4 : ∃ u, t4 ++ u = t3 := by
    rw [ht4]
    by_cases hc : findSub bracketTok t3 ≠ -1
    · rw [if_pos hc]
      exact pySplit_headD_append _ _
    · rw [if_neg hc]
      exact ⟨[], by simp⟩
  have p5 : ∃ u, t5 ++ u = t4 := by
    rw [ht5]
    by_cases hc : findSub formerlyTok t4 ≠ -1
    · rw [if_pos hc]
      exact pySplit_headD_append _ _
    · rw [if_neg hc]
      exact ⟨[], by simp⟩
  obtain ⟨u3, hu3⟩ := p3
  obtain ⟨u4, hu4⟩ := p4
  obtain ⟨u5, hu5⟩ := p5
  have n1 : '\n' ∉ pyStrip s := fun h => hnl (mem_pyStrip s _ h)
  have n2 : '\n' ∉ t2 := by
    rw [ht2]
    exact fun h => n1 (mem_replaceSub_nil _ _ _ h)
  have n5 : '\n' ∉ t5 := by
    intro h
    have h4m : '\n' ∈ t4 := hu5 ▸ List.mem_append_left u5 h
    have h3m : '\n' ∈ t3 := hu4 ▸ List.mem_append_left u4 h4m
    exact n2 (hu3 ▸ List.mem_append_left u3 h3m)
  have hid : replaceSub newlineTok [] t5 = t5 := by
    apply replaceSub_eq_self
    have hh := hasSub_single_false '\n' t5 n5
    rwa [show (['\n'] : List Char) = newlineTok from rfl] at hh
  rw [hid]
  constructor
  · have f3 : hasSub nbspTok t3 = false := hasSub_false_of_append _ _ _ _ hu3 hone
    have f4 : hasSub nbspTok t4 = false := hasSub_false_of_append _ _ _ _ hu4 f3
    exact hasSub_false_of_append _ _ _ _ hu5 f4
  · rw [ht5]
    by_cases hc : findSub formerlyTok t4 ≠ -1
    · rw [if_pos hc]
      exact pySplit_headD_not_hasSub _ _ (by decide)
    · rw [if_neg hc]
      push_neg at hc
      exact (findSub_neg_iff _ _).mp hc

/-! ## HTML data model

A parsed document is a list of table nodes in document order (the only
capability the pipeline uses is `find_all("table", {"class": [...]})`
followed by `find_all('tr')` / `find_all('td')` / `find('img')`).  A cell
carries its text and, optionally, its first embedded `<img>` element,
which in turn optionally carries a `src` attribute. -/

/-- An `<img>` element inside a cell; `src = none` models a missing
`src` attribute (`tag.get('src')` returns `None`). -/
structure HtmlImg where
  src : Option (List Char)
deriving DecidableEq

/-- A `<td>` cell: its `.text` and its first `<img>` child, if any
(`td.find('img')` returns `None` when absent). -/
structure HtmlCell where
  text : List Char
  img : Option HtmlImg
deriving DecidableEq

/-- A `<table>` element: its `class` attribute tokens and its `<tr>` rows,
each row being its list of `<td>` cells. -/
structure HtmlTable where
  classes : List (List Char)
  rows : List (List HtmlCell)
deriving DecidableEq

/-- Default cell, only used to satisfy `List.getD` at indices that the
source guards with explicit length checks. -/
def defaultCell : HtmlCell := ⟨[], none⟩

/-- BeautifulSoup's attribute filter `{"class": [t₁, …]}` matches an
element whose multi-valued `class` attribute contains at least one of the
listed tokens. -/
def matchesClassSet (t : HtmlTable) (set : List (List Char)) : Bool :=
  t.classes.any fun c => decide (c ∈ set)

/-- The primary class set `["wikitable", "sortable", "jquery-tablesorter"]`
(wikipedia_pipeline.py line 91, findtable.py line 29). -/
def primaryClassSet : List (List Char) :=
  [ "wikitable".toList, "sortable".toList, "jquery-tablesorter".toList ]

/-- The fallback class set `["wikitable", "standard"]`
(findtable.py line 31). -/
def secondaryClassSet : List (List Char) :=
  [ "wikitable".toList, "standard".toList ]

/-! ## Row extraction, `extract_wikipedia_data` (wikipedia_pipeline.py lines 78–119)

```python
data = []
for i in range(1, len(rows)):
    tds = rows[i].find_all('td')
    values = {}
    if len(tds) >= 3:
        values['rank'] = i
        values['stadium'] = clean_text(tds[0].text)
        values['capacity'] = clean_text(tds[1].text).replace(',', '').replace('.', '')
        values['region'] = clean_text(tds[2].text) if len(tds) > 2 else ''
        values['country'] = clean_text(tds[3].text) if len(tds) > 3 else ''
        values['city'] = clean_text(tds[4].text) if len(tds) > 4 else ''
        values['images'] = 'https://' + tds[5].find('img').get('src').split("//")[1] if tds[5].find('img') else NO_IMAGE
        values['home_team'] = clean_text(tds[6].text) if len(tds) > 6 else ''
    else:
        print(f"Row {i} has less than 3 data cells, skipping")
    data.append(values)
```

Note `data.append(values)` sits outside the `if`, so a skipped row appends
the empty dict `{}` — modelled as a `none` entry.  `tds[5]` is read with no
length guard, so a row with 3, 4 or 5 cells raises `IndexError`; the
`.get('src')` of an `<img>` without `src` raises `AttributeError` on the
subsequent `.split`; a `src` without `"//"` raises `IndexError` on `[1]`.
All of these escape as exceptions, modelled as `Except.error`. -/

/-- One raw record (`values` dict with all eight keys assigned). -/
structure RawRecord where
  rank : Nat
  stadium : List Char
  capacity : List Char
  region : List Char
  country : List Char
  city : List Char
  images : List Char
  home_team : List Char
deriving DecidableEq

/-- `values['images']` for cell 5
(`'https://' + tds[5].find('img').get('src').split("//")[1] if tds[5].find('img') else NO_IMAGE`). -/
def imagesValue (c5 : HtmlCell) : Except String (List Char) :=
  match c5.img with
  | none => .ok NO_IMAGE
  | some im =>
    match im.src with
    | none => .error attributeErrorMsg
    | some src =>
      match (pySplit slashesTok src).get? 1 with
      | none => .error indexErrorMsg
      | some tail => .ok (httpsTok ++ tail)

/-- The body of one iteration of the extraction loop: row `i` with cells
`tds`; `ok none` is the skipped-row branch (only the empty dict is
appended), `error` an escaping exception. -/
def extractRow (i : Nat) (tds : List HtmlCell) : Except String (Option RawRecord) :=
  if tds.length ≥ 3 then
    match tds.get? 5 with
    | none => .error indexErrorMsg
    | some c5 =>
      match imagesValue c5 with
      | .error e => .error e
      | .ok img =>
        .ok (some
          { rank := i
            stadium := clean_text (tds.getD 0 defaultCell).text
            capacity :=
              replaceSub dotTok [] (replaceSub commaTok [] (clean_text (tds.getD 1 defaultCell).text))
            region := if tds.length > 2 then clean_text (tds.getD 2 defaultCell).text else []
            country := if tds.length > 3 then clean_text (tds.getD 3 defaultCell).text else []
            city := if tds.length > 4 then clean_text (tds.getD 4 defaultCell).text else []
            images := img
            home_team := if tds.length > 6 then clean_text (tds.getD 6 defaultCell).text else [] })
  else
    .ok none

/-- The loop `for i in range(1, len(rows))`, carrying the running index. -/
def extractRowsAux : Nat → List (List HtmlCell) → Except String (List (Option RawRecord))
  | _, [] => .ok []
  | i, tds :: rest =>
    match extractRow i tds with
    | .error e => .error e
    | .ok v =>
      match extractRowsAux (i + 1) rest with
      | .error e => .error e
      | .ok vs => .ok (v :: vs)

/-- Extraction over all rows of the located table (the header row
`rows[0]` is skipped, ranks start at 1). -/
def extractRows (rows : List (List HtmlCell)) : Except String (List (Option RawRecord)) :=
  extractRowsAux 1 (rows.drop 1)

/-- `extract_wikipedia_data` of `wikipedia_pipeline.py`: the HTML parser
(BeautifulSoup) is an external collaborator, passed as `parse`; this file
searches only the primary class set (no fallback) and returns `ok none`
("No table found" + `return None`) when nothing matches. -/
def extract_wikipedia_data (parse : List Char → List HtmlTable) (html : List Char) :
    Except String (Option (List (Option RawRecord))) :=
  match (parse html).filter (fun t => matchesClassSet t primaryClassSet) with
  | [] => .ok none
  | t :: _ =>
    match extractRows t.rows with
    | .error e => .error e
    | .ok l => .ok (some l)

/-! ## `findtable.py`: locator with fallback and its extraction loop -/

/-- A record produced by `get_wikipedia_data` of `findtable.py`
(only `rank`, `stadium`, `capacity`, `region` are populated there). -/
structure FtRecord where
  rank : Nat
  stadium : List Char
  capacity : List Char
  region : List Char
deriving DecidableEq

/-- `tables = soup.find_all(primary); if not tables: tables = soup.find_all(secondary)`
(findtable.py lines 29–31). -/
def ft_findTables (doc : List HtmlTable) : List HtmlTable :=
  match doc.filter (fun t => matchesClassSet t primaryClassSet) with
  | [] => doc.filter (fun t => matchesClassSet t secondaryClassSet)
  | t :: ts => t :: ts

/-- `tables[0]` — the table the locator settles on, if any. -/
def ft_locateTable (doc : List HtmlTable) : Option HtmlTable :=
  (ft_findTables doc).head?

/-- Loop body of findtable.py lines 39–53; as in the other file, the
skipped-row branch appends the empty dict, modelled as `none`. -/
def ft_extractRow (i : Nat) (tds : List HtmlCell) : Option FtRecord :=
  if tds.length ≥ 3 then
    some
      { rank := i
        stadium := ft_clean_text (tds.getD 0 defaultCell).text
        capacity :=
          replaceSub dotTok [] (replaceSub commaTok [] (ft_clean_text (tds.getD 1 defaultCell).text))
        region := if tds.length > 2 then ft_clean_text (tds.getD 2 defaultCell).text else [] }
  else
    none

/-- `for i in range(1, len(rows))` of findtable.py. -/
def ft_extractRowsAux : Nat → List (List HtmlCell) → List (Option FtRecord)
  | _, [] => []
  | i, tds :: rest => ft_extractRow i tds :: ft_extractRowsAux (i + 1) rest

/-- Extraction over the located table's rows, header skipped, ranks from 1. -/
def ft_extractRows (rows : List (List HtmlCell)) : List (Option FtRecord) :=
  ft_extractRowsAux 1 (rows.drop 1)

/-- `get_wikipedia_data` of `findtable.py` applied to a parsed document
(the HTTP fetch and BeautifulSoup parse that produce the document are
external collaborators); `none` is the "No table found" + `return None`
branch. -/
def ft_get_wikipedia_data (doc : List HtmlTable) : Option (List (Option FtRecord)) :=
  match ft_findTables doc with
  | [] => none
  | t :: _ => some (ft_extractRows t.rows)

/-! ## `transform_wikipedia_data` (wikipedia_pipeline.py lines 144–165)

```python
stadiums_df = data.copy()
stadiums_df['location'] = stadiums_df.apply(lambda x: get_lat_long(x['country'], x['city']), axis=1)
stadiums_df['images'] = stadiums_df['images'].apply(lambda x: x if x not in ['NO_IMAGE', '', None] else NO_IMAGE)
stadiums_df['capacity'] = stadiums_df['capacity'].astype(int)
duplicates = stadiums_df[stadiums_df.duplicated(['location'])]
duplicates['location'] = duplicates.apply(lambda x: get_lat_long(x['country'], x['city']), axis=1)
stadiums_df.update(duplicates)
```

The geocoder (`get_lat_long`, backed by Nominatim) is an external
collaborator: a function from (country, city) to an optional coordinate
pair; coordinates are only compared for equality, so they are modelled as
`Option (Int × Int)` (`none` = geocoder found nothing, stored as NaN).
`duplicated(['location'])` marks every row whose location equals that of
an *earlier* row (pandas default `keep='first'`; NaN values count as equal
to each other).  `update` overwrites only non-NA values, so a re-query
returning `None` leaves the old location in place.  `astype(int)` raises
`ValueError` on a non-numeric string, aborting the whole call. -/

/-- An enriched record: parsed capacity plus resolved location. -/
structure EnrichedRecord where
  rank : Nat
  stadium : List Char
  capacity : Int
  region : List Char
  country : List Char
  city : List Char
  images : List Char
  home_team : List Char
  location : Option (Int × Int)
deriving DecidableEq

/-- Digits-to-number helper for `pyInt`. -/
def digitsToNat (ds : List Char) : Nat :=
  ds.foldl (fun n c => 10 * n + (c.toNat - 48)) 0

/-- Python `int(str)` as invoked per element by `astype(int)` on an object
column: optional surrounding whitespace, optional sign, then at least one
digit; anything else raises `ValueError`. -/
def pyInt (s : List Char) : Except String Int :=
  match pyStrip s with
  | '-' :: ds => if ds ≠ [] ∧ ds.all Char.isDigit then .ok (-(digitsToNat ds : Int)) else .error valueErrorMsg
  | '+' :: ds => if ds ≠ [] ∧ ds.all Char.isDigit then .ok (digitsToNat ds : Int) else .error valueErrorMsg
  | ds => if ds ≠ [] ∧ ds.all Char.isDigit then .ok (digitsToNat ds : Int) else .error valueErrorMsg

/-- Column-wise fallible map: the first failing element aborts the whole
column conversion, as `astype(int)` does. -/
def mapExcept (f : List Char → Except String Int) : List (List Char) → Except String (List Int)
  | [] => .ok []
  | a :: as =>
    match f a with
    | .error e => .error e
    | .ok b =>
      match mapExcept f as with
      | .error e => .error e
      | .ok bs => .ok (b :: bs)

/-- Assemble enriched records from the original rows and the three freshly
computed columns (location, images, capacity). -/
def buildEnriched : List RawRecord → List (Option (Int × Int)) → List (List Char) → List Int →
    List EnrichedRecord
  | r :: rs, l :: ls, im :: ims, c :: cs =>
    { rank := r.rank
      stadium := r.stadium
      capacity := c
      region := r.region
      country := r.country
      city := r.city
      images := im
      home_team := r.home_team
      location := l } :: buildEnriched rs ls ims cs
  | _, _, _, _ => []

/-- `df.duplicated(['location'])` with an accumulator of already seen
values: a row is marked iff its location was seen on an earlier row
(pandas `keep='first'`; NaN == NaN for this purpose). -/
def pdDuplicatedAux (seen : List (Option (Int × Int))) :
    List (Option (Int × Int)) → List Bool
  | [] => []
  | l :: rest => decide (l ∈ seen) :: pdDuplicatedAux (l :: seen) rest

/-- `stadiums_df.duplicated(['location'])`. -/
def pdDuplicated (ls : List (Option (Int × Int))) : List Bool :=
  pdDuplicatedAux [] ls

/-- The dedup rewrite, rows paired with their duplicate flags:
`duplicates['location'] = duplicates.apply(...)` re-geocodes each flagged
row, and `stadiums_df.update(duplicates)` copies the fresh value back
unless it is NaN (`update` skips NA values, so a `none` re-query keeps the
old location). -/
def dedupSecondPassAux (geo : List Char → List Char → Option (Int × Int)) :
    List EnrichedRecord → List Bool → List EnrichedRecord
  | [], _ => []
  | _ :: _, [] => []
  | r :: rs, f :: fs =>
    (if f then
        match geo r.country r.city with
        | some l => { r with location := some l }
        | none => r
      else r) :: dedupSecondPassAux geo rs fs

/-- Lines 160–163: flag duplicates by location, re-query each flagged row
once, write back non-NA results. -/
def dedupSecondPass (geo : List Char → List Char → Option (Int × Int))
    (recs : List EnrichedRecord) : List EnrichedRecord :=
  dedupSecondPassAux geo recs (pdDuplicated (recs.map EnrichedRecord.location))

/-- Number of second-pass geocoder invocations per row:
`duplicates.apply(lambda x: get_lat_long(...), axis=1)` calls the geocoder
exactly once per row of `duplicates`, i.e. once per flagged row and never
for unflagged rows. -/
def dedupSecondPassCalls (recs : List EnrichedRecord) : List Nat :=
  (pdDuplicated (recs.map EnrichedRecord.location)).map fun f => if f then 1 else 0

/-- `transform_wikipedia_data`: location column (line 156), images fixup
(line 157, comparing against the literal string `'NO_IMAGE'` and `''`),
capacity `astype(int)` (line 158, fallible), then the dedup pass
(lines 160–163). -/
def transform_wikipedia_data (geo : List Char → List Char → Option (Int × Int))
    (data : List RawRecord) : Except String (List EnrichedRecord) :=
  let locs := data.map fun r => geo r.country r.city
  let imgs := data.map fun r =>
    if r.images = NO_IMAGE_LIT ∨ r.images = [] then NO_IMAGE else r.images
  match mapExcept pyInt (data.map RawRecord.capacity) with
  | .error e => .error e
  | .ok caps => .ok (dedupSecondPass geo (buildEnriched data locs imgs caps))

/-! ## The Prefect flow (wikipedia_pipeline.py lines 168–183)

```python
@prefect.flow
def wikipedia_data_pipeline(url: str, output_file: str):
    data = extract_wikipedia_data(url)
    if data is not None:
        transformed_data = transform_wikipedia_data(data)
        transformed_data.to_csv(output_file, index=False)
```

The flow hands the *url string itself* to `extract_wikipedia_data`, which
parses it as HTML; no fetch happens anywhere in the flow. -/

/-- All-some lifting of the extracted rows: a `none` row is the empty dict
appended for a skipped short row, which becomes an all-NaN DataFrame row. -/
def liftRows : List (Option RawRecord) → Option (List RawRecord)
  | [] => some []
  | none :: _ => none
  | some r :: rest =>
    match liftRows rest with
    | none => none
    | some l => some (r :: l)

/-- The transform step as invoked by the flow on the extracted DataFrame:
if any row is the all-NaN placeholder of a skipped short row,
`astype(int)` raises on its NaN capacity (the geocoder calls issued before
line 158 are not observable in the result); otherwise it is
`transform_wikipedia_data` on the full records. -/
def transformStage (geo : List Char → List Char → Option (Int × Int))
    (rows : List (Option RawRecord)) : Except String (List EnrichedRecord) :=
  match liftRows rows with
  | none => .error nanErrorMsg
  | some data => transform_wikipedia_data geo data

/-- `wikipedia_data_pipeline url output_file`: result is `ok none` when no
file is written (extraction returned `None`), `ok (some (file, records))`
when the transformed records were written to `output_file`, and `error`
when an exception escaped. -/
def wikipedia_data_pipeline (parse : List Char → List HtmlTable)
    (geo : List Char → List Char → Option (Int × Int)) (url output_file : List Char) :
    Except String (Option (List Char × List EnrichedRecord)) :=
  match extract_wikipedia_data parse url with
  | .error e => .error e
  | .ok none => .ok none
  | .ok (some data) =>
    match transformStage geo data with
    | .error e => .error e
    | .ok out => .ok (some (output_file, out))

/-! ## Helper lemmas about the extraction and transform stages -/

theorem mapExcept_error_of_mem (f : List Char → Except String Int) (l : List (List Char))
    (a : List Char) (e : String) (ha : a ∈ l) (hf : f a = .error e) :
    ∃ msg, mapExcept f l = .error msg := by
  induction l with
  | nil => simp at ha
  | cons b bs ih =>
    rcases List.mem_cons.mp ha with rfl | hmem
    · exact ⟨e, by simp [mapExcept, hf]⟩
    · cases hb : f b with
      | error e2 => exact ⟨e2, by simp [mapExcept, hb]⟩
      | ok v =>
        rcases ih hmem with ⟨msg, hmsg⟩
        exact ⟨msg, by simp [mapExcept, hb, hmsg]⟩

theorem pdDuplicatedAux_get? (ls : List (Option (Int × Int))) :
    ∀ (seen : List (Option (Int × Int))) (i : Nat) (l : Option (Int × Int)),
    ls.get? i = some l →
    (pdDuplicatedAux seen ls).get? i = some (decide (l ∈ seen ∨ l ∈ ls.take i)) := by
  induction ls with
  | nil => intro seen i l h; simp at h
  | cons x rest ih =>
    intro seen i l h
    cases i with
    | zero =>
      simp only [List.get?_cons_zero, Option.some.injEq] at h
      subst h
      simp [pdDuplicatedAux]
    | succ j =>
      simp only [List.get?_cons_succ] at h
      simp only [pdDuplicatedAux, List.get?_cons_succ]
      rw [ih (x :: seen) j l h]
      congr 1
      rw [decide_eq_decide]
      simp only [List.take_succ_cons, List.mem_cons]
      tauto

theorem dedupSecondPassAux_get? (geo : List Char → List Char → Option (Int × Int))
    (rs : List EnrichedRecord) :
    ∀ (fs : List Bool) (i : Nat) (r : EnrichedRecord) (f : Bool),
    rs.get? i = some r → fs.get? i = some f →
    (dedupSecondPassAux geo rs fs).get? i =
      some (if f then
              match geo r.country r.city with
              | some l => { r with location := some l }
              | none => r
            else r) := by
  induction rs with
  | nil => intro fs i r f h _; simp at h
  | cons x rest ih =>
    intro fs i r f hr hf
    cases fs with
    | nil => simp at hf
    | cons g gs =>
      cases i with
      | zero =>
        simp only [List.get?_cons_zero, Option.some.injEq] at hr hf
        subst hr
        subst hf
        simp [dedupSecondPassAux]
      | succ j =>
        simp only [List.get?_cons_succ] at hr hf
        simp only [dedupSecondPassAux, List.get?_cons_succ]
        exact ih gs j r f hr hf

theorem filter_head_first (p : HtmlTable → Bool) (l : List HtmlTable) (t : HtmlTable)
    (h : (l.filter p).head? = some t) :
    p t = true ∧ ∃ pre post, l = pre ++ t :: post ∧ ∀ u ∈ pre, p u = false := by
  induction l with
  | nil => simp at h
  | cons c rest ih =>
    by_cases hp : p c = true
    · rw [List.filter_cons_of_pos hp] at h
      simp only [List.head?_cons, Option.some.injEq] at h
      subst h
      exact ⟨hp, [], rest, rfl, by simp⟩
    · rw [List.filter_cons_of_neg hp] at h
      rcases ih h with ⟨hpt, pre, post, hsplit, hall⟩
      refine ⟨hpt, c :: pre, post, by rw [hsplit, List.cons_append], ?_⟩
      intro u hu
      rcases List.mem_cons.mp hu with rfl | hu2
      · exact Bool.eq_false_iff.mpr hp
      · exact hall u hu2

theorem filter_eq_nil_of_all (p : HtmlTable → Bool) (l : List HtmlTable)
    (h : ∀ u ∈ l, p u = false) : l.filter p = [] := by
  induction l with
  | nil => rfl
  | cons c rest ih =>
    rw [List.filter_cons_of_neg (by simp [h c (List.mem_cons_self c rest)])]
    exact ih fun u hu => h u (List.mem_cons_of_mem _ hu)

theorem filter_ne_nil_of_mem (p : HtmlTable → Bool) (l : List HtmlTable) (t : HtmlTable)
    (ht : t ∈ l) (hp : p t = true) : l.filter p ≠ [] := by
  intro h
  have hmem : t ∈ l.filter p := List.mem_filter.mpr ⟨ht, hp⟩
  rw [h] at hmem
  simp at hmem

theorem ft_extractRowsAux_length (rs : List (List HtmlCell)) :
    ∀ i, (ft_extractRowsAux i rs).length = rs.length := by
  induction rs with
  | nil => intro i; rfl
  | cons tds rest ih => intro i; simp [ft_extractRowsAux, ih]

theorem ft_extractRowsAux_get? (rs : List (List HtmlCell)) :
    ∀ (i j : Nat) (q : FtRecord),
    (ft_extractRowsAux i rs).get? j = some (some q) → q.rank = i + j := by
  induction rs with
  | nil => intro i j q h; simp [ft_extractRowsAux] at h
  | cons tds rest ih =>
    intro i j q h
    cases j with
    | zero =>
      simp only [ft_extractRowsAux, List.get?_cons_zero, Option.some.injEq] at h
      unfold ft_extractRow at h
      split at h
      · cases h
        simp
      · exact Option.noConfusion h
    | succ k =>
      simp only [ft_extractRowsAux, List.get?_cons_succ] at h
      have := ih (i + 1) k q h
      omega

theorem ft_extractRowsAux_ranks (rs : List (List HtmlCell)) :
    ∀ i : Nat,
      List.Pairwise (· < ·) (((ft_extractRowsAux i rs).filterMap id).map FtRecord.rank)
      ∧ ∀ r ∈ ((ft_extractRowsAux i rs).filterMap id).map FtRecord.rank,
          i ≤ r ∧ r < i + rs.length := by
  induction rs with
  | nil =>
    intro i
    constructor
    · simp [ft_extractRowsAux]
    · simp [ft_extractRowsAux]
  | cons tds rest ih =>
    intro i
    have ihp := (ih (i + 1)).1
    have ihb := (ih (i + 1)).2
    cases hrow : ft_extractRow i tds with
    | none =>
      simp only [ft_extractRowsAux, hrow, List.filterMap_cons, id]
      constructor
      · exact ihp
      · intro r hr
        rcases ihb r hr with ⟨h1, h2⟩
        simp only [List.length_cons]
        omega
    | some q =>
      have hrank : q.rank = i := by
        unfold ft_extractRow at hrow
        split at hrow
        · cases hrow
          rfl
        · exact Option.noConfusion hrow
      simp only [ft_extractRowsAux, hrow, List.filterMap_cons, id, List.map_cons]
      constructor
      · apply List.Pairwise.cons
        · intro b hb
          rcases ihb b hb with ⟨h1, _⟩
          omega
        · exact ihp
      · intro r hr
        rcases List.mem_cons.mp hr with rfl | hr2
        · simp only [List.length_cons]
          omega
        · rcases ihb r hr2 with ⟨h1, h2⟩
          simp only [List.length_cons]
          omega

/-! ## Claim theorems -/

/-- Claim C9: the Text Normalizer `clean_text` is total: for every input the
checked evaluation — with Python's fallible `[0]` indexing made explicit —
succeeds and returns exactly the string computed by `clean_text`, so no
exception is ever raised; and the empty string is a valid output (the empty
input produces it). -/
theorem clean_text_total :
    (∀ s : List Char, clean_textChecked s = some (clean_text s)) ∧
      clean_text [] = [] ∧ clean_textChecked [] = some [] :=
  ⟨clean_textChecked_eq, by decide, by decide⟩

/-- The cell text `"&nbsp ♦foo"`: after the `'&nbsp'` removal the
preferred-name marker `' ♦'` sits at position 0. -/
def c7Input : List Char := "&nbsp ♦foo".toList

/-- Claim C7 (code-bug evaluation): on `c7Input` the marker `' ♦'` is present,
`find(' ♦')` returns 0 at the point of the guard, the guard
`if text.find(' ♦'):` is therefore falsy, and `clean_text` returns `" ♦foo"`
with the marker still present — instead of the portion strictly before the
first occurrence, as the claim (and the `!= -1` comparisons used for the other
two markers) demand. -/
theorem clean_text_marker_at_position_zero_not_truncated :
    hasSub diamondTok c7Input = true ∧
      findSub diamondTok (replaceSub nbspTok [] (pyStrip c7Input)) = 0 ∧
      clean_text c7Input = " ♦foo".toList ∧
      hasSub diamondTok (clean_text c7Input) = true :=
  ⟨by decide, by decide, by decide, by decide⟩

/-- Cell text containing all three artifacts, where newline removal
re-assembles a `' (formerly)'` qualifier and the `'['` truncation leaves a
trailing space that an independent re-cleaning of the prefix would strip. -/
def c6CexInput : List Char := "&nbspa (for\nmerly)b [c (formerly)d".toList

/-- Claim C6 (counterexample): `c6CexInput` contains a `'['` marker, a
`' (formerly)'` qualifier and an `'&nbsp'` artifact simultaneously, yet the
`clean_text` output still contains `' (formerly)'` (re-assembled by the final
newline removal), and the output differs from the cleaning of all text
preceding the earliest truncation point (the `'['` at index 20, so that text
is `c6CexInput.take 20`). -/
theorem clean_text_artifact_reassembly_cex :
    (hasSub bracketTok c6CexInput = true ∧ hasSub formerlyTok c6CexInput = true ∧
      hasSub nbspTok c6CexInput = true) ∧
    c6CexInput.get? 20 = some '[' ∧
    hasSub formerlyTok (clean_text c6CexInput) = true ∧
    clean_text c6CexInput ≠ clean_text (c6CexInput.take 20) :=
  ⟨⟨by decide, by decide, by decide⟩, by decide, by decide, by decide⟩

/-- Claim C6 (amended): for every cell text containing a `'['` marker, a
`' (formerly)'` qualifier and an `'&nbsp'` artifact simultaneously, the
`clean_text` output contains no `'['`; and provided the text contains no
newline and a single `'&nbsp'` removal pass is exhaustive (no occurrence
re-assembles), the output contains no `'&nbsp'` and no `' (formerly)'`
either. -/
theorem clean_text_artifact_removal (s : List Char)
    (_h1 : hasSub bracketTok s = true) (_h2 : hasSub formerlyTok s = true)
    (_h3 : hasSub nbspTok s = true) :
    hasSub bracketTok (clean_text s) = false ∧
    ('\n' ∉ s → hasSub nbspTok (replaceSub nbspTok [] (pyStrip s)) = false →
      hasSub nbspTok (clean_text s) = false ∧ hasSub formerlyTok (clean_text s) = false) :=
  ⟨clean_text_no_bracket s, fun hnl hone => clean_text_no_nbsp_formerly s hnl hone⟩

/-- A newline-free cell text containing all three artifacts exactly once. -/
def c6WitnessInput : List Char := "Stadium&nbsp Name[1] (formerly)Old".toList

/-- Witness for `clean_text_artifact_removal` at a concrete cell text. -/
theorem clean_text_artifact_removal_witness :
    hasSub bracketTok (clean_text c6WitnessInput) = false ∧
    hasSub nbspTok (clean_text c6WitnessInput) = false ∧
    hasSub formerlyTok (clean_text c6WitnessInput) = false := by
  have h := clean_text_artifact_removal c6WitnessInput (by decide) (by decide) (by decide)
  have h2 := h.2 (by decide) (by decide)
  exact ⟨h.1, h2.1, h2.2⟩

/-- Claim C1 (code-bug evaluation): a data row with exactly 3, 4 or 5 cells
makes the extraction loop raise `IndexError` at the unguarded `tds[5]` access
on the `values['images']` line — it does not produce a record with empty
optional fields and the sentinel image, and extraction does not complete;
a whole table whose single data row has 3 cells aborts the same way. -/
theorem extract_row_index5_out_of_bounds :
    extractRow 1 [ ⟨ "S".toList, none⟩, ⟨ "1".toList, none⟩, ⟨ "R".toList, none⟩ ] =
      .error indexErrorMsg ∧
    extractRow 1 [ ⟨ "S".toList, none⟩, ⟨ "1".toList, none⟩, ⟨ "R".toList, none⟩,
        ⟨ "C".toList, none⟩ ] =
      .error indexErrorMsg ∧
    extractRow 1 [ ⟨ "S".toList, none⟩, ⟨ "1".toList, none⟩, ⟨ "R".toList, none⟩,
        ⟨ "C".toList, none⟩, ⟨ "T".toList, none⟩ ] =
      .error indexErrorMsg ∧
    extractRows [ [], [ ⟨ "S".toList, none⟩, ⟨ "1".toList, none⟩, ⟨ "R".toList, none⟩ ] ] =
      .error indexErrorMsg :=
  ⟨rfl, rfl, rfl, rfl⟩

/-- The synthetic table of claim C2: one header row and four data rows, the
second data row having only 2 cells, the others 6 (so that the unguarded
`tds[5]` access succeeds). -/
def c2Table : List (List HtmlCell) :=
  [ [],
    [ ⟨ "A".toList, none⟩, ⟨ "1".toList, none⟩, ⟨ "R".toList, none⟩, ⟨ [], none⟩, ⟨ [], none⟩,
      ⟨ [], none⟩ ],
    [ ⟨ "B".toList, none⟩, ⟨ "2".toList, none⟩ ],
    [ ⟨ "C".toList, none⟩, ⟨ "3".toList, none⟩, ⟨ "R".toList, none⟩, ⟨ [], none⟩, ⟨ [], none⟩,
      ⟨ [], none⟩ ],
    [ ⟨ "D".toList, none⟩, ⟨ "4".toList, none⟩, ⟨ "R".toList, none⟩, ⟨ [], none⟩, ⟨ [], none⟩,
      ⟨ [], none⟩ ] ]

/-- Claim C2 (code-bug evaluation): on the synthetic table the extraction
loop emits FOUR entries, not three — `data.append(values)` sits outside the
`if`, so the skipped 2-cell row appends the empty dict (an all-NaN DataFrame
row), modelled as the `none` entry at position 1.  The three genuine records
do carry the gap-preserving ranks 1, 3, 4. -/
theorem extract_skipped_row_emits_placeholder :
    (extractRows c2Table).map
        (fun l => (l.length, l.countP Option.isSome, (l.filterMap id).map RawRecord.rank)) =
      .ok (4, 3, [1, 3, 4]) ∧
    (extractRows c2Table).map (fun l => l.get? 1) = .ok (some none) :=
  ⟨rfl, rfl⟩

/-- A well-formed record (numeric capacity). -/
def c3GoodRecord : RawRecord :=
  { rank := 1, stadium := "Camp Nou".toList, capacity := "99354".toList, region := [],
    country := [], city := [], images := [], home_team := [] }

/-- A record whose cleaned capacity string is non-numeric. -/
def c3BadRecord : RawRecord :=
  { rank := 2, stadium := "Unknown Arena".toList, capacity := "N/A".toList, region := [],
    country := [], city := [], images := [], home_team := [] }

/-- Claim C3 (counterexample): a batch holding one well-formed record and one
record with non-numeric capacity makes `transform_wikipedia_data` raise
`ValueError` at the `astype(int)` step: no record is emitted — including the
well-formed one — so the record is not "still emitted with capacity marked
invalid" and the failure does abort the batch. -/
theorem transform_nonnumeric_capacity_cex :
    transform_wikipedia_data (fun _ _ => none) [c3GoodRecord, c3BadRecord] =
      .error valueErrorMsg :=
  rfl

/-- Claim C3 (amended): any batch containing a record whose cleaned capacity
string fails integer parsing makes the whole `transform_wikipedia_data` call
fail with an error: the batch is aborted and no record of it is emitted. -/
theorem transform_nonnumeric_capacity_aborts
    (geo : List Char → List Char → Option (Int × Int)) (data : List RawRecord)
    (r : RawRecord) (e : String) (hr : r ∈ data) (hfail : pyInt r.capacity = .error e) :
    ∃ msg, transform_wikipedia_data geo data = .error msg := by
  rcases mapExcept_error_of_mem pyInt (data.map RawRecord.capacity) r.capacity e
      (List.mem_map_of_mem _ hr) hfail with ⟨msg, hmsg⟩
  exact ⟨msg, by simp [transform_wikipedia_data, hmsg]⟩

/-- Witness for `transform_nonnumeric_capacity_aborts` at a concrete batch. -/
theorem transform_nonnumeric_capacity_aborts_witness :
    ∃ msg, transform_wikipedia_data (fun _ _ => none) [c3GoodRecord, c3BadRecord] =
      .error msg :=
  transform_nonnumeric_capacity_aborts _ _ c3BadRecord valueErrorMsg
    (List.mem_cons_of_mem _ (List.mem_cons_self _ _)) rfl

/-- First of two records that initially resolve to the same coordinate. -/
def c4RecordA : EnrichedRecord :=
  { rank := 1, stadium := "A".toList, capacity := 100, region := [],
    country := "X".toList, city := "Y".toList, images := [], home_team := [],
    location := some (7, 7) }

/-- Second of two records that initially resolve to the same coordinate. -/
def c4RecordB : EnrichedRecord :=
  { rank := 2, stadium := "B".toList, capacity := 200, region := [],
    country := "X".toList, city := "Y".toList, images := [], home_team := [],
    location := some (7, 7) }

/-- Claim C4 (counterexample): two records initially resolving to the same
coordinate form a duplicate group of size 2 — yet the second-pass geocoder
call counts are `[0, 1]`: the first member of the group is never re-queried
(`duplicated` keeps the first occurrence unflagged), contradicting "for every
record in any group of size greater than 1 the Location Resolver is re-invoked
exactly once". -/
theorem dedup_first_of_group_not_requeried_cex :
    c4RecordA.location = c4RecordB.location ∧
    dedupSecondPassCalls [c4RecordA, c4RecordB] = [0, 1] :=
  ⟨rfl, by decide⟩

/-- Claim C4 (amended): after the initial resolutions, record `i` is marked
duplicate exactly when an earlier record has an equal location (absent
counting as equal to absent); the second-pass resolver is invoked exactly once
per marked record and zero times for unmarked ones — so of two records
initially resolving to the same coordinate only the second is re-queried, once
— and a marked record's location is overwritten with the fresh result when it
is present and kept unchanged when the re-query returns nothing; unmarked
records are untouched. -/
theorem dedup_second_pass_characterization
    (geo : List Char → List Char → Option (Int × Int)) (recs : List EnrichedRecord)
    (i : Nat) (r : EnrichedRecord) (h : recs.get? i = some r) :
    (dedupSecondPassCalls recs).get? i =
      some (if r.location ∈ (recs.map EnrichedRecord.location).take i then 1 else 0) ∧
    (dedupSecondPass geo recs).get? i =
      some (if r.location ∈ (recs.map EnrichedRecord.location).take i then
              match geo r.country r.city with
              | some l => { r with location := some l }
              | none => r
            else r) := by
  have hloc : (recs.map EnrichedRecord.location).get? i = some r.location := by
    rw [List.get?_map, h]
    rfl
  have hflag := pdDuplicatedAux_get? (recs.map EnrichedRecord.location) [] i r.location hloc
  have hflag' : (pdDuplicated (recs.map EnrichedRecord.location)).get? i =
      some (decide (r.location ∈ (recs.map EnrichedRecord.location).take i)) := by
    rw [pdDuplicated, hflag]
    congr 1
    rw [decide_eq_decide]
    simp
  constructor
  · rw [dedupSecondPassCalls, List.get?_map, hflag']
    by_cases hm : r.location ∈ (recs.map EnrichedRecord.location).take i
    · simp [hm]
    · simp [hm]
  · have haux := dedupSecondPassAux_get? geo recs (pdDuplicated (recs.map EnrichedRecord.location))
      i r (decide (r.location ∈ (recs.map EnrichedRecord.location).take i)) h hflag'
    rw [dedupSecondPass, haux]
    by_cases hm : r.location ∈ (recs.map EnrichedRecord.location).take i
    · simp [hm]
    · simp [hm]

/-- Witness for `dedup_second_pass_characterization`: with two records of
identical location the second one is flagged, costs exactly one re-query, and
is overwritten with the fresh geocoder result. -/
theorem dedup_second_pass_characterization_witness :
    (dedupSecondPassCalls [c4RecordA, c4RecordB]).get? 1 = some 1 ∧
    (dedupSecondPass (fun _ _ => some (9, 9)) [c4RecordA, c4RecordB]).get? 1 =
      some { c4RecordB with location := some (9, 9) } := by
  have h := dedup_second_pass_characterization (fun _ _ => some (9, 9))
    [c4RecordA, c4RecordB] 1 c4RecordB rfl
  constructor
  · rw [h.1]
    decide
  · rw [h.2]
    decide

/-- Claim C5: the Table Locator (`get_wikipedia_data`, findtable.py): the
primary class set has three canonical tokens and the secondary two; if any
table matches the primary set the locator returns the first such table in
document order; otherwise, if any table matches the secondary set, it falls
back and returns the first such table in document order; and if no table
matches either set the locator yields nothing and the stage returns the
explicit failure result (`None`), emitting no records. -/
theorem table_locator_primary_fallback_first_match (doc : List HtmlTable) :
    primaryClassSet.length = 3 ∧ secondaryClassSet.length = 2 ∧
    ((∃ t ∈ doc, matchesClassSet t primaryClassSet = true) →
      ∃ t pre post, ft_locateTable doc = some t ∧ matchesClassSet t primaryClassSet = true ∧
        doc = pre ++ t :: post ∧ ∀ u ∈ pre, matchesClassSet u primaryClassSet = false) ∧
    ((∀ t ∈ doc, matchesClassSet t primaryClassSet = false) →
      (∃ t ∈ doc, matchesClassSet t secondaryClassSet = true) →
      ∃ t pre post, ft_locateTable doc = some t ∧ matchesClassSet t secondaryClassSet = true ∧
        doc = pre ++ t :: post ∧ ∀ u ∈ pre, matchesClassSet u secondaryClassSet = false) ∧
    ((∀ t ∈ doc, matchesClassSet t primaryClassSet = false ∧
        matchesClassSet t secondaryClassSet = false) →
      ft_locateTable doc = none ∧ ft_get_wikipedia_data doc = none) := by
  refine ⟨rfl, rfl, ?_, ?_, ?_⟩
  · rintro ⟨t0, ht0, hp0⟩
    have hne := filter_ne_nil_of_mem (fun t => matchesClassSet t primaryClassSet) doc t0 ht0 hp0
    have hft : ft_findTables doc = doc.filter (fun t => matchesClassSet t primaryClassSet) := by
      unfold ft_findTables
      cases hc : doc.filter (fun t => matchesClassSet t primaryClassSet) with
      | nil => exact absurd hc hne
      | cons a as => rfl
    cases hh : (doc.filter (fun t => matchesClassSet t primaryClassSet)).head? with
    | none =>
      exfalso
      cases hc : doc.filter (fun t => matchesClassSet t primaryClassSet) with
      | nil => exact hne hc
      | cons a as =>
        rw [hc] at hh
        exact Option.noConfusion hh
    | some t =>
      rcases filter_head_first _ doc t hh with ⟨hpt, pre, post, hsplit, hall⟩
      exact ⟨t, pre, post, by rw [ft_locateTable, hft, hh], hpt, hsplit, hall⟩
  · intro hall hex
    rcases hex with ⟨t0, ht0, hs0⟩
    have hpnil : doc.filter (fun t => matchesClassSet t primaryClassSet) = [] :=
      filter_eq_nil_of_all _ doc hall
    have hft : ft_findTables doc = doc.filter (fun t => matchesClassSet t secondaryClassSet) := by
      unfold ft_findTables
      rw [hpnil]
    have hne := filter_ne_nil_of_mem (fun t => matchesClassSet t secondaryClassSet) doc t0 ht0 hs0
    cases hh : (doc.filter (fun t => matchesClassSet t secondaryClassSet)).head? with
    | none =>
      exfalso
      cases hc : doc.filter (fun t => matchesClassSet t secondaryClassSet) with
      | nil => exact hne hc
      | cons a as =>
        rw [hc] at hh
        exact Option.noConfusion hh
    | some t =>
      rcases filter_head_first _ doc t hh with ⟨hpt, pre, post, hsplit, hall2⟩
      exact ⟨t, pre, post, by rw [ft_locateTable, hft, hh], hpt, hsplit, hall2⟩
  · intro hboth
    have hp : doc.filter (fun t => matchesClassSet t primaryClassSet) = [] :=
      filter_eq_nil_of_all _ doc fun u hu => (hboth u hu).1
    have hs : doc.filter (fun t => matchesClassSet t secondaryClassSet) = [] :=
      filter_eq_nil_of_all _ doc fun u hu => (hboth u hu).2
    have hft : ft_findTables doc = [] := by
      unfold ft_findTables
      rw [hp, hs]
    constructor
    · rw [ft_locateTable, hft]
      rfl
    · unfold ft_get_wikipedia_data
      rw [hft]

/-- A document whose only table carries class `standard`: the primary set
fails, the fallback set matches. -/
def c5Doc : List HtmlTable := [ { classes := [ "standard".toList ], rows := [] } ]

/-- Witness for `table_locator_primary_fallback_first_match`, exercising the
fallback branch on a concrete document. -/
theorem table_locator_primary_fallback_first_match_witness :
    ∃ t pre post, ft_locateTable c5Doc = some t ∧
      matchesClassSet t secondaryClassSet = true ∧
      c5Doc = pre ++ t :: post ∧ ∀ u ∈ pre, matchesClassSet u secondaryClassSet = false :=
  (table_locator_primary_fallback_first_match c5Doc).2.2.2.1 (by decide) (by decide)

/-- Claim C8: for a table with `R` data rows (`rows.length - 1`), the loop of
findtable.py emits exactly one entry per data row encountered (skipped short
rows included); the entry at position `j`, when it is a record, carries rank
`j + 1`; across emitted records the ranks are strictly increasing in output
order (hence unique) and form a subset of `1..R`. -/
theorem extractor_rank_invariant (rows : List (List HtmlCell)) :
    (ft_extractRows rows).length = rows.length - 1 ∧
    (∀ j q, (ft_extractRows rows).get? j = some (some q) → q.rank = j + 1) ∧
    List.Pairwise (· < ·) (((ft_extractRows rows).filterMap id).map FtRecord.rank) ∧
    ∀ r ∈ ((ft_extractRows rows).filterMap id).map FtRecord.rank,
      1 ≤ r ∧ r ≤ rows.length - 1 := by
  refine ⟨?_, ?_, ?_, ?_⟩
  · rw [ft_extractRows, ft_extractRowsAux_length, List.length_drop]
  · intro j q h
    have := ft_extractRowsAux_get? (rows.drop 1) 1 j q h
    omega
  · exact (ft_extractRowsAux_ranks (rows.drop 1) 1).1
  · intro r hr
    rcases (ft_extractRowsAux_ranks (rows.drop 1) 1).2 r hr with ⟨h1, h2⟩
    rw [List.length_drop] at h2
    omega

/-- A table with one header row and three data rows, the middle one short. -/
def c8Rows : List (List HtmlCell) :=
  [ [],
    [ ⟨ "A".toList, none⟩, ⟨ "1".toList, none⟩, ⟨ "R".toList, none⟩ ],
    [ ⟨ "B".toList, none⟩ ],
    [ ⟨ "C".toList, none⟩, ⟨ "3".toList, none⟩, ⟨ "R".toList, none⟩ ] ]

/-- Witness for `extractor_rank_invariant` at a concrete table. -/
theorem extractor_rank_invariant_witness :
    (ft_extractRows c8Rows).length = 3 ∧
    List.Pairwise (· < ·) (((ft_extractRows c8Rows).filterMap id).map FtRecord.rank) ∧
    ∀ r ∈ ((ft_extractRows c8Rows).filterMap id).map FtRecord.rank, 1 ≤ r ∧ r ≤ 3 := by
  have h := extractor_rank_invariant c8Rows
  exact ⟨h.1, h.2.2.1, fun r hr => h.2.2.2 r hr⟩

/-- Claim C10: the flow body is `extract_wikipedia_data(url)` — the url string
itself, never fetched page content, is parsed as HTML.  Whenever parsing the
url text yields no table element (as for a bare URL), extraction returns the
explicit `None` and the flow terminates without writing any output file, for
every url and output file. -/
theorem flow_passes_url_no_table_no_write (parse : List Char → List HtmlTable)
    (geo : List Char → List Char → Option (Int × Int)) (url output_file : List Char)
    (h : parse url = []) :
    extract_wikipedia_data parse url = .ok none ∧
    wikipedia_data_pipeline parse geo url output_file = .ok none := by
  have he : extract_wikipedia_data parse url = .ok none := by
    unfold extract_wikipedia_data
    rw [h]
    rfl
  refine ⟨he, ?_⟩
  unfold wikipedia_data_pipeline
  rw [he]

/-- The url and output file of the repository's `__main__` invocation. -/
def flowUrl : List Char :=
  "https://en.wikipedia.org/wiki/List_of_association_football_stadiums_by_capacity".toList

/-- The output file of the repository's `__main__` invocation. -/
def flowOutputFile : List Char := "stadiums.csv".toList

/-- Witness for `flow_passes_url_no_table_no_write`: the `__main__`
parameters, with a parser that finds no table element in the bare URL text. -/
theorem flow_passes_url_no_table_no_write_witness :
    extract_wikipedia_data (fun _ => []) flowUrl = .ok none ∧
    wikipedia_data_pipeline (fun _ => []) (fun _ _ => none) flowUrl flowOutputFile = .ok none :=
  flow_passes_url_no_table_no_write _ _ _ _ rfl
